import Mathlib

/-!
Verification development for the go-mastodon client.

Part 1 embeds the account API (`accounts.go`): the `Profile` update
parameter construction, the uniform `(result, error)` shape of every
account operation, and the `id[]` query construction of
`GetAccountRelationships`.  `url.Values` is embedded as an ordered list
of key/value pairs with Go's `Set` (replace all values of the key) and
`Add` (append) semantics; the opaque `doAPI` call is embedded as a
universally quantified outcome `Except ApiError A` (error, or the
decoded value it wrote into the output argument).

Part 2 models the streaming event client (Frame Decoder, Event Decoder,
Stream Session, Dispatch Sink).  That subsystem is code of this
repository not present under src/, so its definitions are modelled from
the specification, as their doc comments state.
-/

namespace Mastodon

/-- Embeds Go `url.Values`: an ordered multimap of query parameters.
Go's map iteration order does not matter for the claims here; what
matters is the per-key value list, which `Add` appends to and `Set`
replaces. -/
def Values := List (String × String)

def Values.empty : Values := []

/-- Go `url.Values.Add`: appends the value to the key's list. -/
def Values.add (vs : Values) (k v : String) : Values := List.append vs [(k, v)]

/-- Go `url.Values.Set`: replaces all of the key's values with the one value. -/
def Values.set (vs : Values) (k v : String) : Values :=
  List.append (List.filter (fun p => p.1 ≠ k) vs) [(k, v)]

/-- The list of values recorded for a key, in insertion order
(Go: `vs[k]`, a `[]string`). -/
def Values.valuesOf (vs : Values) (k : String) : List String :=
  List.map (fun p => p.2) (List.filter (fun p => p.1 = k) vs)

/-- Whether the key occurs in the parameter set (Go: `_, ok := vs[k]` with
a non-empty slice). -/
def Values.hasKey (vs : Values) (k : String) : Bool :=
  List.any vs (fun p => p.1 = k)

instance : DecidableEq Values := by
  unfold Values; infer_instance

/-- `Profile` from accounts.go: `DisplayName` and `Note` are pointers
(nil = do not update, pointer to "" = clear); `Avatar` and `Header` are
plain strings. -/
structure Profile where
  displayName : Option String
  note : Option String
  avatar : String
  header : String

/-- The parameter set built by `AccountUpdate` (accounts.go lines 63-76):
each field is added exactly when its Go guard holds. -/
def accountUpdateParams (profile : Profile) : Values :=
  let params := Values.empty
  let params := match profile.displayName with
    | some d => params.set "display_name" d
    | none => params
  let params := match profile.note with
    | some n => params.set "note" n
    | none => params
  let params := if profile.avatar ≠ "" then params.set "avatar" profile.avatar else params
  let params := if profile.header ≠ "" then params.set "header" profile.header else params
  params

/-- The query built by `GetAccountRelationships` (accounts.go lines
197-201): one `id[]` parameter per element of `ids`, added in order,
with the value `fmt.Sprint(id)` (decimal rendering of the int64). -/
def getAccountRelationshipsParams (ids : List Int) : Values :=
  List.foldl (fun params id => params.add "id[]" (toString id)) Values.empty ids

/-- Opaque error value returned by `doAPI`. -/
structure ApiError where
  msg : String

/-- Minimal stand-in for the `Account` JSON structure; its field set is
out of scope, only its presence or absence in a result matters. -/
structure Account where
  id : Int

/-- Minimal stand-in for the `Status` JSON structure. -/
structure Status where
  id : String
deriving DecidableEq

/-- Minimal stand-in for the `Notification` JSON structure. -/
structure Notification where
  id : String
deriving DecidableEq

/-- Minimal stand-in for the `Relationship` JSON structure. -/
structure Relationship where
  id : Int

/-- The uniform body shared by every account operation in accounts.go:
call `doAPI`, and `if err != nil { return nil, err }; return &out, nil`.
The opaque `doAPI` call is embedded as its outcome: either an error, or
the decoded value it wrote into the output argument.  Go's nilable
pointer/slice result is `Option A`, the nilable error is
`Option ApiError`. -/
def apiReturn {A : Type} (outcome : Except ApiError A) : Option A × Option ApiError :=
  match outcome with
  | .error err => (none, some err)
  | .ok out => (some out, none)

/-- `GetAccount` (accounts.go lines 31-38). -/
def getAccount (outcome : Except ApiError Account) : Option Account × Option ApiError :=
  apiReturn outcome

/-- `GetAccountCurrentUser` (accounts.go lines 41-48). -/
def getAccountCurrentUser (outcome : Except ApiError Account) :
    Option Account × Option ApiError :=
  apiReturn outcome

/-- The result pair of `AccountUpdate` (accounts.go lines 78-83), after
the parameter set has been built. -/
def accountUpdateResult (outcome : Except ApiError Account) :
    Option Account × Option ApiError :=
  apiReturn outcome

/-- `GetAccountStatuses` (accounts.go lines 87-94); the decoded slice is
a list of statuses. -/
def getAccountStatuses (outcome : Except ApiError (List Status)) :
    Option (List Status) × Option ApiError :=
  apiReturn outcome

/-- `GetAccountFollowers` (accounts.go lines 97-104). -/
def getAccountFollowers (outcome : Except ApiError (List Account)) :
    Option (List Account) × Option ApiError :=
  apiReturn outcome

/-- `GetAccountFollowing` (accounts.go lines 107-114). -/
def getAccountFollowing (outcome : Except ApiError (List Account)) :
    Option (List Account) × Option ApiError :=
  apiReturn outcome

/-- `GetBlocks` (accounts.go lines 117-124). -/
def getBlocks (outcome : Except ApiError (List Account)) :
    Option (List Account) × Option ApiError :=
  apiReturn outcome

/-- `AccountFollow` (accounts.go lines 137-144). -/
def accountFollow (outcome : Except ApiError Relationship) :
    Option Relationship × Option ApiError :=
  apiReturn outcome

/-- `AccountUnfollow` (accounts.go lines 147-154). -/
def accountUnfollow (outcome : Except ApiError Relationship) :
    Option Relationship × Option ApiError :=
  apiReturn outcome

/-- `AccountBlock` (accounts.go lines 157-164). -/
def accountBlock (outcome : Except ApiError Relationship) :
    Option Relationship × Option ApiError :=
  apiReturn outcome

/-- `AccountUnblock` (accounts.go lines 167-174). -/
def accountUnblock (outcome : Except ApiError Relationship) :
    Option Relationship × Option ApiError :=
  apiReturn outcome

/-- `AccountMute` (accounts.go lines 177-184). -/
def accountMute (outcome : Except ApiError Relationship) :
    Option Relationship × Option ApiError :=
  apiReturn outcome

/-- `AccountUnmute` (accounts.go lines 187-194). -/
def accountUnmute (outcome : Except ApiError Relationship) :
    Option Relationship × Option ApiError :=
  apiReturn outcome

/-- The result pair of `GetAccountRelationships` (accounts.go lines
203-208), after the query has been built. -/
def getAccountRelationshipsResult (outcome : Except ApiError (List Relationship)) :
    Option (List Relationship) × Option ApiError :=
  apiReturn outcome

/-- `AccountsSearch` (accounts.go lines 212-223). -/
def accountsSearch (outcome : Except ApiError (List Account)) :
    Option (List Account) × Option ApiError :=
  apiReturn outcome

/-- `FollowRemoteUser` (accounts.go lines 226-236). -/
def followRemoteUser (outcome : Except ApiError Account) :
    Option Account × Option ApiError :=
  apiReturn outcome

/-- `GetFollowRequests` (accounts.go lines 239-246). -/
def getFollowRequests (outcome : Except ApiError (List Account)) :
    Option (List Account) × Option ApiError :=
  apiReturn outcome

/-- `GetMutes` (accounts.go lines 259-266). -/
def getMutes (outcome : Except ApiError (List Account)) :
    Option (List Account) × Option ApiError :=
  apiReturn outcome

lemma apiReturn_nil_iff {A : Type} (outcome : Except ApiError A) :
    (apiReturn outcome).1 = none ↔ (apiReturn outcome).2.isSome := by
  cases outcome <;> simp [apiReturn]

lemma relationshipsParams_foldl (vs : Values) (ids : List Int) :
    List.foldl (fun params id => params.add "id[]" (toString id)) vs ids =
      List.append vs (List.map (fun id => ("id[]", toString id)) ids) := by
  induction ids generalizing vs with
  | nil => simp [List.append]
  | cons id rest ih =>
      rw [List.foldl_cons, ih]
      simp [Values.add, List.append]

lemma valuesOf_map_pairs (k : String) (f : Int → String) (ids : List Int) :
    Values.valuesOf (List.map (fun id => (k, f id)) ids) k = List.map f ids := by
  induction ids with
  | nil => rfl
  | cons id rest ih => simpa [Values.valuesOf] using ih

/-- C8: the `AccountUpdate` parameter set contains `display_name` iff
`profile.DisplayName` is non-nil and `note` iff `profile.Note` is
non-nil (a non-nil pointer to the empty string still sets the key,
clearing the field), but contains `avatar` iff `profile.Avatar` is
non-empty and `header` iff `profile.Header` is non-empty — so an avatar
or header can never be updated to the empty value. -/
theorem accountUpdate_param_keys (profile : Profile) :
    ((accountUpdateParams profile).hasKey "display_name" = true ↔
        profile.displayName.isSome) ∧
    ((accountUpdateParams profile).hasKey "note" = true ↔ profile.note.isSome) ∧
    ((accountUpdateParams profile).hasKey "avatar" = true ↔ profile.avatar ≠ "") ∧
    ((accountUpdateParams profile).hasKey "header" = true ↔ profile.header ≠ "") := by
  rcases profile with ⟨dn, nt, av, hd⟩
  cases dn <;> cases nt <;>
    rcases eq_or_ne av "" with hav | hav <;>
    rcases eq_or_ne hd "" with hhd | hhd <;>
    simp [accountUpdateParams, Values.hasKey, Values.set, Values.empty,
      List.append, hav, hhd]

/-- C9: every account-API operation that returns a pointer or slice
result together with an error returns a nil result exactly when the
error is non-nil: a `doAPI` failure yields `(nil, err)`, success yields
the decoded value and a nil error. -/
theorem accountApi_nil_iff_error :
    (∀ o, (getAccount o).1 = none ↔ (getAccount o).2.isSome) ∧
    (∀ o, (getAccountCurrentUser o).1 = none ↔ (getAccountCurrentUser o).2.isSome) ∧
    (∀ o, (accountUpdateResult o).1 = none ↔ (accountUpdateResult o).2.isSome) ∧
    (∀ o, (getAccountStatuses o).1 = none ↔ (getAccountStatuses o).2.isSome) ∧
    (∀ o, (getAccountFollowers o).1 = none ↔ (getAccountFollowers o).2.isSome) ∧
    (∀ o, (getAccountFollowing o).1 = none ↔ (getAccountFollowing o).2.isSome) ∧
    (∀ o, (getBlocks o).1 = none ↔ (getBlocks o).2.isSome) ∧
    (∀ o, (accountFollow o).1 = none ↔ (accountFollow o).2.isSome) ∧
    (∀ o, (accountUnfollow o).1 = none ↔ (accountUnfollow o).2.isSome) ∧
    (∀ o, (accountBlock o).1 = none ↔ (accountBlock o).2.isSome) ∧
    (∀ o, (accountUnblock o).1 = none ↔ (accountUnblock o).2.isSome) ∧
    (∀ o, (accountMute o).1 = none ↔ (accountMute o).2.isSome) ∧
    (∀ o, (accountUnmute o).1 = none ↔ (accountUnmute o).2.isSome) ∧
    (∀ o, (getAccountRelationshipsResult o).1 = none ↔
        (getAccountRelationshipsResult o).2.isSome) ∧
    (∀ o, (accountsSearch o).1 = none ↔ (accountsSearch o).2.isSome) ∧
    (∀ o, (followRemoteUser o).1 = none ↔ (followRemoteUser o).2.isSome) ∧
    (∀ o, (getFollowRequests o).1 = none ↔ (getFollowRequests o).2.isSome) ∧
    (∀ o, (getMutes o).1 = none ↔ (getMutes o).2.isSome) :=
  ⟨fun o => apiReturn_nil_iff o, fun o => apiReturn_nil_iff o,
    fun o => apiReturn_nil_iff o, fun o => apiReturn_nil_iff o,
    fun o => apiReturn_nil_iff o, fun o => apiReturn_nil_iff o,
    fun o => apiReturn_nil_iff o, fun o => apiReturn_nil_iff o,
    fun o => apiReturn_nil_iff o, fun o => apiReturn_nil_iff o,
    fun o => apiReturn_nil_iff o, fun o => apiReturn_nil_iff o,
    fun o => apiReturn_nil_iff o, fun o => apiReturn_nil_iff o,
    fun o => apiReturn_nil_iff o, fun o => apiReturn_nil_iff o,
    fun o => apiReturn_nil_iff o, fun o => apiReturn_nil_iff o⟩

/-- C10: `GetAccountRelationships` adds exactly one `id[]` parameter per
element of `ids`, in the same order, each value the decimal rendering of
the ID; the number of `id[]` values equals the length of `ids`. -/
theorem getAccountRelationships_query (ids : List Int) :
    (getAccountRelationshipsParams ids).valuesOf "id[]" =
        List.map (fun id => toString id) ids ∧
    ((getAccountRelationshipsParams ids).valuesOf "id[]").length = ids.length := by
  have h : getAccountRelationshipsParams ids =
      List.map (fun id => (("id[]" : String), toString id)) ids := by
    simpa [getAccountRelationshipsParams, Values.empty, List.append] using
      relationshipsParams_foldl Values.empty ids
  have hv : (getAccountRelationshipsParams ids).valuesOf "id[]" =
      List.map (fun id => toString id) ids := by
    rw [h]; exact valuesOf_map_pairs "id[]" (fun id => toString id) ids
  exact ⟨hv, by rw [hv, List.length_map]⟩

/-! ## Streaming event client

The streaming subsystem (Frame Decoder, Event Decoder, Stream Session,
Dispatch Sink) is code of this repository that is not present under
src/; the definitions below are modelled from the specification. -/

/-- Modelled from the spec: a `RawFrame` is one protocol unit — an
event-type label (absent means the `"message"` default, resolved by the
Frame Decoder) and a raw payload body.  The streaming decoder source is
missing from src/. -/
structure RawFrame where
  eventType : String
  payload : String
deriving DecidableEq

/-- Modelled from the spec: the closed `DomainEvent` variant (status
update, notification, deletion, heartbeat, unknown).  The streaming
decoder source is missing from src/. -/
inductive DomainEvent where
  | statusUpdate (status : Status)
  | notification (notification : Notification)
  | deletion (statusID : String)
  | heartbeat
  | unknown (rawType : String) (rawPayload : String)
deriving DecidableEq

/-- Modelled from the spec: the Event Decoder — dispatch on the frame's
event-type label; `update`/`notification` parse their JSON payload
(the JSON decode capability is an external collaborator, embedded as the
parse functions `pS`/`pN` returning `none` on malformed input);
`delete` takes the payload as a bare ID; `message` with empty payload is
a heartbeat; everything else, including any parse failure, is `Unknown`
carrying the raw type and payload.  The Event Decoder source is missing
from src/. -/
def decodeEvent (pS : String → Option Status) (pN : String → Option Notification)
    (f : RawFrame) : DomainEvent :=
  if f.eventType = "update" then
    match pS f.payload with
    | some s => .statusUpdate s
    | none => .unknown f.eventType f.payload
  else if f.eventType = "notification" then
    match pN f.payload with
    | some n => .notification n
    | none => .unknown f.eventType f.payload
  else if f.eventType = "delete" then .deletion f.payload
  else if f.eventType = "message" then
    if f.payload = "" then .heartbeat else .unknown f.eventType f.payload
  else .unknown f.eventType f.payload

/-- C1: the Event Decoder is total — every `RawFrame` yields exactly one
`DomainEvent`, never zero, never more than one, and no error escapes; a
frame whose JSON payload is malformed (the parser returns `none`)
decodes to `Unknown` carrying the raw type and payload, as does any
frame with an unrecognized event type. -/
theorem decodeEvent_total (pS : String → Option Status)
    (pN : String → Option Notification) (f : RawFrame) :
    (∃! e : DomainEvent, decodeEvent pS pN f = e) ∧
    (f.eventType = "update" → pS f.payload = none →
      decodeEvent pS pN f = .unknown f.eventType f.payload) ∧
    (f.eventType = "notification" → pN f.payload = none →
      decodeEvent pS pN f = .unknown f.eventType f.payload) ∧
    (f.eventType ≠ "update" → f.eventType ≠ "notification" →
      f.eventType ≠ "delete" → f.eventType ≠ "message" →
      decodeEvent pS pN f = .unknown f.eventType f.payload) := by
  refine ⟨⟨decodeEvent pS pN f, rfl, fun e he => he.symm⟩, ?_, ?_, ?_⟩
  · intro ht hp
    simp [decodeEvent, ht, hp]
  · intro ht hp
    simp [decodeEvent, ht, hp]
  · intro h1 h2 h3 h4
    simp [decodeEvent, h1, h2, h3, h4]

/-- Witness for C1 at a concrete frame: an `update` frame whose payload
every parser rejects decodes to `Unknown` with the raw text attached. -/
theorem decodeEvent_total_witness :
    decodeEvent (fun _ => none) (fun _ => none) ⟨"update", "not json"⟩ =
      .unknown "update" "not json" :=
  (decodeEvent_total (fun _ => none) (fun _ => none) ⟨"update", "not json"⟩).2.1
    rfl rfl

/-- Modelled from the spec: the frame under construction inside the
Frame Decoder — the `event` field seen so far (if any) and the `data`
lines in arrival order (multiple `data:` lines are joined with a newline
on emission).  The Frame Decoder source is missing from src/. -/
structure FrameAcc where
  event : Option String
  dataLines : List String
deriving DecidableEq

def FrameAcc.empty : FrameAcc := ⟨none, []⟩

/-- Splits a line at its first colon into field name and remainder. -/
def splitAtColon : List Char → Option (List Char × List Char)
  | [] => none
  | c :: cs =>
    if c = ':' then some ([], cs)
    else
      match splitAtColon cs with
      | none => none
      | some (f, v) => some (c :: f, v)

/-- Drops the single optional space after the colon of a `field: value`
line. -/
def dropOneSpace : List Char → List Char
  | ' ' :: cs => cs
  | cs => cs

/-- Modelled from the spec: a blank line closes and emits the frame
under construction if it has a payload; a frame with no `data` field is
discarded, and a frame closed with no `event` field defaults its type to
`"message"`.  The Frame Decoder source is missing from src/. -/
def closeFrame (fr : FrameAcc) : List RawFrame :=
  if fr.dataLines = [] then []
  else [⟨fr.event.getD "message", String.intercalate "\n" fr.dataLines⟩]

/-- Modelled from the spec: classification of one physical line — blank
closes the frame, a leading `:` is a comment and is discarded, `event`
and `data` fields are recorded (`id`/`retry` are recognized but carry
nothing into the `RawFrame`), unrecognized lines are ignored.  The Frame
Decoder source is missing from src/. -/
def processLine (fr : FrameAcc) (line : List Char) : FrameAcc × List RawFrame :=
  if line = [] then (FrameAcc.empty, closeFrame fr)
  else if line.head? = some ':' then (fr, [])
  else
    match splitAtColon line with
    | none => (fr, [])
    | some (fieldChars, rest) =>
      let field := String.mk fieldChars
      let value := String.mk (dropOneSpace rest)
      if field = "event" then ({ fr with event := some value }, [])
      else if field = "data" then
        ({ fr with dataLines := fr.dataLines ++ [value] }, [])
      else (fr, [])

/-- Modelled from the spec: Frame Decoder state — the buffered
incomplete line and the frame under construction.  The Frame Decoder
source is missing from src/. -/
structure DecState where
  lineBuf : List Char
  frame : FrameAcc
deriving DecidableEq

def DecState.start : DecState := ⟨[], FrameAcc.empty⟩

/-- Modelled from the spec: one byte of wire input — a newline completes
the buffered line and processes it, any other byte is buffered.  The
Frame Decoder source is missing from src/. -/
def decodeStep (s : DecState) (c : Char) : DecState × List RawFrame :=
  if c = '\n' then
    let r := processLine s.frame s.lineBuf
    (⟨[], r.1⟩, r.2)
  else (⟨s.lineBuf ++ [c], s.frame⟩, [])

/-- Feeds one chunk of bytes through the decoder, collecting emitted
frames in order. -/
def feedBytes : DecState → List Char → DecState × List RawFrame
  | s, [] => (s, [])
  | s, c :: cs =>
    let r1 := decodeStep s c
    let r2 := feedBytes r1.1 cs
    (r2.1, r1.2 ++ r2.2)

/-- Feeds a sequence of chunks (one per wire read) through the decoder,
collecting emitted frames in order; an incomplete frame left at end of
input is discarded, not emitted. -/
def feedChunks : DecState → List (List Char) → DecState × List RawFrame
  | s, [] => (s, [])
  | s, chunk :: rest =>
    let r1 := feedBytes s chunk
    let r2 := feedChunks r1.1 rest
    (r2.1, r1.2 ++ r2.2)

lemma feedBytes_append (s : DecState) (xs ys : List Char) :
    feedBytes s (xs ++ ys) =
      ((feedBytes (feedBytes s xs).1 ys).1,
        (feedBytes s xs).2 ++ (feedBytes (feedBytes s xs).1 ys).2) := by
  induction xs generalizing s with
  | nil => simp [feedBytes]
  | cons c cs ih => simp [feedBytes, ih]

lemma feedChunks_join (s : DecState) (chunks : List (List Char)) :
    feedChunks s chunks = feedBytes s chunks.flatten := by
  induction chunks generalizing s with
  | nil => simp [feedChunks, feedBytes]
  | cons ch rest ih => simp [feedChunks, feedBytes_append, ih]

/-- C2: chunking invariance of the Frame Decoder — any two ways of
splitting the same byte sequence into chunks produce the identical
sequence of `RawFrame`s. -/
theorem frameDecoder_chunking_invariant (chunks1 chunks2 : List (List Char))
    (h : chunks1.flatten = chunks2.flatten) :
    (feedChunks DecState.start chunks1).2 = (feedChunks DecState.start chunks2).2 := by
  rw [feedChunks_join, feedChunks_join, h]

/-- Witness for C2: two different chunkings of the same two-frame byte
stream yield the same decoded frames. -/
theorem frameDecoder_chunking_invariant_witness :
    ["data".toList, ": x\n\nev".toList, "ent: u\ndata: y\n\n".toList].flatten =
      ["d".toList, "ata: x".toList, "\n\nevent: u\ndata: y\n\n".toList].flatten ∧
    (feedChunks DecState.start
        ["data".toList, ": x\n\nev".toList, "ent: u\ndata: y\n\n".toList]).2 =
      (feedChunks DecState.start
        ["d".toList, "ata: x".toList, "\n\nevent: u\ndata: y\n\n".toList]).2 :=
  ⟨by decide,
    frameDecoder_chunking_invariant
      ["data".toList, ": x\n\nev".toList, "ent: u\ndata: y\n\n".toList]
      ["d".toList, "ata: x".toList, "\n\nevent: u\ndata: y\n\n".toList] (by decide)⟩

/-- Modelled from the spec: the kinds of connection failure the error
taxonomy distinguishes.  The Stream Session source is missing from
src/. -/
inductive FailKind where
  | dnsFailure
  | tcpFailure
  | httpStatus (code : Nat)
  | abruptClose
  | livenessTimeout
deriving DecidableEq

/-- Modelled from the spec: a failure is an authorization rejection when
it is signaled by the response status (HTTP 401 or 403); every other
failure kind is a retryable transport failure.  The Stream Session
source is missing from src/. -/
def isAuthRejected : FailKind → Bool
  | .httpStatus code => code = 401 || code = 403
  | _ => false

/-- Modelled from the spec: `ConnectionState`.  The Stream Session
source is missing from src/. -/
inductive ConnState where
  | idle
  | connecting
  | streaming
  | reconnecting (attempt : Nat)
  | closed
deriving DecidableEq

/-- Modelled from the spec: the Stream Session's observable state — the
connection state, the consecutive-failure counter, the events pushed to
the Dispatch Sink so far, the time of the last received frame (liveness
bookkeeping), and the recorded last error.  The Stream Session source is
missing from src/. -/
structure Session where
  state : ConnState
  attempt : Nat
  delivered : List DomainEvent
  lastFrameAt : Nat
  lastError : Option FailKind
deriving DecidableEq

/-- Modelled from the spec: the occurrences the session loop reacts to.
`survivedHeartbeatInterval` stands for a connection that stayed alive
for one full heartbeat interval.  The Stream Session source is missing
from src/. -/
inductive SessionAction where
  | start
  | stop
  | connEstablished
  | frame (now : Nat) (f : RawFrame)
  | connFailed (k : FailKind)
  | survivedHeartbeatInterval
  | reconnectTimerFired
deriving DecidableEq

/-- Modelled from the spec: one transition of the Stream Session.
`Stop()` always moves to `Closed`; in `Closed` every other occurrence is
ignored (read loop cancelled, reconnect abandoned).  Every received
frame resets the liveness timer; heartbeats are not delivered; a
delivered non-heartbeat frame or a survived heartbeat interval resets
the attempt counter; a connection failure either closes the session with
a recorded last error (authorization rejected) or moves to
`Reconnecting` with the next attempt number (transient, retried without
bound).  The Stream Session source is missing from src/. -/
def stepSession (pS : String → Option Status) (pN : String → Option Notification)
    (s : Session) (a : SessionAction) : Session :=
  match a with
  | .stop => { s with state := .closed }
  | .start => if s.state = .idle then { s with state := .connecting } else s
  | .connEstablished =>
    match s.state with
    | .connecting => { s with state := .streaming }
    | .reconnecting _ => { s with state := .streaming }
    | _ => s
  | .frame now f =>
    if s.state = .streaming then
      match decodeEvent pS pN f with
      | .heartbeat => { s with lastFrameAt := now }
      | e => { s with lastFrameAt := now, delivered := s.delivered ++ [e], attempt := 0 }
    else s
  | .connFailed k =>
    match s.state with
    | .closed => s
    | .idle => s
    | _ =>
      if isAuthRejected k then { s with state := .closed, lastError := some k }
      else { s with state := .reconnecting (s.attempt + 1), attempt := s.attempt + 1 }
  | .survivedHeartbeatInterval =>
    if s.state = .streaming then { s with attempt := 0 } else s
  | .reconnectTimerFired =>
    match s.state with
    | .reconnecting _ => { s with state := .connecting }
    | _ => s

/-- Runs the session over a sequence of occurrences. -/
def runSession (pS : String → Option Status) (pN : String → Option Notification)
    (s : Session) (acts : List SessionAction) : Session :=
  List.foldl (stepSession pS pN) s acts

/-- Modelled from the spec: what a subscriber's `Next()` returns.  The
Dispatch Sink source is missing from src/. -/
inductive NextResult where
  | event (e : DomainEvent)
  | closedSignal
deriving DecidableEq

/-- Modelled from the spec: `Next()` on a subscription — once the
session is `Closed` the queue has been released and any blocked reader
is woken with the cancellation signal; otherwise the head of the queue
is returned (`none` models a reader still blocked on an empty queue).
The Dispatch Sink source is missing from src/. -/
def nextEvent (s : Session) (queue : List DomainEvent) : Option NextResult :=
  if s.state = .closed then some .closedSignal
  else
    match queue with
    | [] => none
    | e :: _ => some (.event e)

lemma stepSession_closed (pS : String → Option Status)
    (pN : String → Option Notification) (s : Session) (a : SessionAction)
    (h : s.state = .closed) : stepSession pS pN s a = s := by
  rcases s with ⟨st, att, dl, lf, le⟩
  subst h
  cases a <;> simp [stepSession]

lemma runSession_closed (pS : String → Option Status)
    (pN : String → Option Notification) (s : Session)
    (acts : List SessionAction) (h : s.state = .closed) :
    runSession pS pN s acts = s := by
  induction acts with
  | nil => rfl
  | cons a rest ih =>
      show runSession pS pN (stepSession pS pN s a) rest = s
      rw [stepSession_closed pS pN s a h, ih]

/-- C3: after `Stop()` the session is `Closed` and stays `Closed` under
any further sequence of occurrences, no further event is ever delivered,
no reconnect or connection attempt can start, every `Next()` call on any
subscription returns the closed signal, and `Stop()` is idempotent. -/
theorem stop_is_final (pS : String → Option Status)
    (pN : String → Option Notification) (s : Session)
    (acts : List SessionAction) :
    (runSession pS pN (stepSession pS pN s .stop) acts).state = .closed ∧
    (runSession pS pN (stepSession pS pN s .stop) acts).delivered = s.delivered ∧
    (∀ queue, nextEvent (runSession pS pN (stepSession pS pN s .stop) acts) queue =
      some .closedSignal) ∧
    stepSession pS pN (stepSession pS pN s .stop) .stop = stepSession pS pN s .stop := by
  have hst : (stepSession pS pN s .stop).state = .closed := rfl
  have hrun := runSession_closed pS pN (stepSession pS pN s .stop) acts hst
  refine ⟨by rw [hrun]; exact hst, by rw [hrun]; rfl, fun queue => ?_, ?_⟩
  · rw [hrun]
    simp [nextEvent, hst]
  · exact stepSession_closed pS pN (stepSession pS pN s .stop) .stop hst

lemma stepSession_no_heartbeat (pS : String → Option Status)
    (pN : String → Option Notification) (s : Session) (a : SessionAction)
    (hd : DomainEvent.heartbeat ∉ s.delivered) :
    DomainEvent.heartbeat ∉ (stepSession pS pN s a).delivered := by
  cases a with
  | frame now f =>
      by_cases hs : s.state = .streaming
      · cases hdec : decodeEvent pS pN f <;>
          simp_all [stepSession, hs, hdec]
      · simpa [stepSession, hs] using hd
  | stop => simpa [stepSession] using hd
  | start =>
      by_cases hs : s.state = .idle <;> simpa [stepSession, hs] using hd
  | connEstablished =>
      cases hs : s.state <;> simpa [stepSession, hs] using hd
  | connFailed k =>
      cases hs : s.state <;>
        by_cases hk : isAuthRejected k = true <;>
        simp_all [stepSession, hk]
  | survivedHeartbeatInterval =>
      by_cases hs : s.state = .streaming <;> simpa [stepSession, hs] using hd
  | reconnectTimerFired =>
      cases hs : s.state <;> simpa [stepSession, hs] using hd

lemma runSession_no_heartbeat (pS : String → Option Status)
    (pN : String → Option Notification) (s : Session)
    (acts : List SessionAction)
    (hd : DomainEvent.heartbeat ∉ s.delivered) :
    DomainEvent.heartbeat ∉ (runSession pS pN s acts).delivered := by
  induction acts generalizing s with
  | nil => exact hd
  | cons a rest ih =>
      exact ih (stepSession pS pN s a) (stepSession_no_heartbeat pS pN s a hd)

/-- C4: a received heartbeat frame resets the liveness timer and
delivers nothing — and over any run that starts with no heartbeat ever
delivered, the heartbeat event never appears in the delivered sequence
any subscriber draws from. -/
theorem heartbeat_invisible (pS : String → Option Status)
    (pN : String → Option Notification) (s : Session) (now : Nat)
    (f : RawFrame) (acts : List SessionAction)
    (hs : s.state = .streaming)
    (hf : decodeEvent pS pN f = .heartbeat)
    (hd : DomainEvent.heartbeat ∉ s.delivered) :
    (stepSession pS pN s (.frame now f)).lastFrameAt = now ∧
    (stepSession pS pN s (.frame now f)).delivered = s.delivered ∧
    DomainEvent.heartbeat ∉ (runSession pS pN s acts).delivered := by
  refine ⟨?_, ?_, runSession_no_heartbeat pS pN s acts hd⟩ <;>
    simp [stepSession, hs, hf]

/-- Witness for C4 at a concrete run: a streaming session receives a
heartbeat frame (`message` with empty payload); its liveness timestamp
becomes the frame's arrival time, nothing is delivered for it, and a
subsequent run containing the heartbeat and real traffic never delivers
a heartbeat event. -/
theorem heartbeat_invisible_witness :
    (Session.mk .streaming 0 [] 0 none).state = .streaming ∧
    decodeEvent (fun _ => none) (fun _ => none) ⟨"message", ""⟩ =
      .heartbeat ∧
    DomainEvent.heartbeat ∉ (Session.mk .streaming 0 [] 0 none).delivered ∧
    ((stepSession (fun _ => none) (fun _ => none)
        (Session.mk .streaming 0 [] 0 none)
        (.frame 7 ⟨"message", ""⟩)).lastFrameAt = 7 ∧
      (stepSession (fun _ => none) (fun _ => none)
        (Session.mk .streaming 0 [] 0 none)
        (.frame 7 ⟨"message", ""⟩)).delivered =
          (Session.mk .streaming 0 [] 0 none).delivered ∧
      DomainEvent.heartbeat ∉
        (runSession (fun _ => none) (fun _ => none)
          (Session.mk .streaming 0 [] 0 none)
          [.frame 7 ⟨"message", ""⟩, .frame 9 ⟨"delete", "1"⟩]).delivered) :=
  ⟨rfl, rfl, by simp,
    heartbeat_invisible (fun _ => none) (fun _ => none)
      (Session.mk .streaming 0 [] 0 none) 7 ⟨"message", ""⟩
      [.frame 7 ⟨"message", ""⟩, .frame 9 ⟨"delete", "1"⟩] rfl rfl (by simp)⟩

/-- Modelled from the spec: a subscription's bounded delivery queue,
with its capacity and its monotonically increasing dropped-event count.
The Dispatch Sink source is missing from src/. -/
structure Subscription where
  capacity : Nat
  queue : List DomainEvent
  dropped : Nat
deriving DecidableEq

/-- A newly created subscription: empty queue, zero drops. -/
def Subscription.fresh (c : Nat) : Subscription := ⟨c, [], 0⟩

/-- Modelled from the spec: the sink pushes one event to a subscriber —
when the queue is full the oldest undelivered event is dropped and the
dropped count incremented; ingestion never blocks.  The Dispatch Sink
source is missing from src/. -/
def pushEvent (sub : Subscription) (e : DomainEvent) : Subscription :=
  if sub.queue.length < sub.capacity then
    { sub with queue := sub.queue ++ [e] }
  else
    { sub with queue := sub.queue.drop 1 ++ [e], dropped := sub.dropped + 1 }

/-- Pushes a sequence of arriving events to a subscriber that never
calls `Next()` in between. -/
def pushAll (sub : Subscription) (es : List DomainEvent) : Subscription :=
  List.foldl pushEvent sub es

lemma pushAll_append (sub : Subscription) (es : List DomainEvent)
    (e : DomainEvent) :
    pushAll sub (es ++ [e]) = pushEvent (pushAll sub es) e := by
  simp [pushAll]

lemma pushAll_fresh_spec (c : Nat) (hc : 0 < c) (es : List DomainEvent) :
    (pushAll (Subscription.fresh c) es).capacity = c ∧
    (pushAll (Subscription.fresh c) es).queue = es.drop (es.length - c) ∧
    (pushAll (Subscription.fresh c) es).dropped = es.length - c := by
  induction es using List.reverseRecOn with
  | nil => simp [pushAll, Subscription.fresh]
  | append_singleton es e ih =>
      obtain ⟨ihcap, ihq, ihd⟩ := ih
      rw [pushAll_append]
      rcases Nat.lt_or_ge es.length c with hlt | hge
      · have hq : (pushAll (Subscription.fresh c) es).queue = es := by
          rw [ihq, Nat.sub_eq_zero_of_le hlt.le, List.drop_zero]
        have hlen : (pushAll (Subscription.fresh c) es).queue.length <
            (pushAll (Subscription.fresh c) es).capacity := by
          rw [hq, ihcap]; exact hlt
        have h1 : es.length + 1 - c = 0 := Nat.sub_eq_zero_of_le hlt
        refine ⟨?_, ?_, ?_⟩ <;>
          simp [pushEvent, hlen, hlt, hq, ihcap, ihd, h1,
            Nat.sub_eq_zero_of_le hlt.le]
      · have hqlen : (pushAll (Subscription.fresh c) es).queue.length = c := by
          rw [ihq, List.length_drop]
          omega
        have hlen : ¬ (pushAll (Subscription.fresh c) es).queue.length <
            (pushAll (Subscription.fresh c) es).capacity := by
          rw [hqlen, ihcap]; exact lt_irrefl c
        have hdrop : (es ++ [e]).drop (es.length + 1 - c) =
            es.drop (es.length + 1 - c) ++ [e] :=
          List.drop_append_of_le_length (by omega)
        refine ⟨by rw [pushEvent, if_neg hlen]; exact ihcap, ?_, ?_⟩
        · rw [pushEvent, if_neg hlen]
          simp only [List.length_append, List.length_cons, List.length_nil]
          rw [hdrop, ihq, List.drop_drop]
          congr 2
          omega
        · rw [pushEvent, if_neg hlen]
          simp only [List.length_append, List.length_cons, List.length_nil]
          rw [ihd]
          omega

lemma pushEvent_dropped_le (sub : Subscription) (e : DomainEvent) :
    sub.dropped ≤ (pushEvent sub e).dropped := by
  by_cases h : sub.queue.length < sub.capacity <;> simp [pushEvent, h]

lemma pushAll_dropped_mono (sub : Subscription) (es : List DomainEvent) :
    sub.dropped ≤ (pushAll sub es).dropped := by
  induction es generalizing sub with
  | nil => exact le_refl _
  | cons e rest ih =>
      exact le_trans (pushEvent_dropped_le sub e) (ih (pushEvent sub e))

/-- C6: a subscriber with queue capacity `c > 0` that never calls
`Next()` while the events `es` arrive ends up with exactly the `c` most
recent events queued (all of them when fewer than `c` arrived), a
dropped count of `es.length - c`, and when at least `c` events arrived
the queue holds exactly `c` events; the dropped count is monotone and
ingestion never blocks (the push is total). -/
theorem sink_overflow_drops_oldest (c : Nat) (es : List DomainEvent)
    (hc : 0 < c) :
    (pushAll (Subscription.fresh c) es).queue = es.drop (es.length - c) ∧
    (pushAll (Subscription.fresh c) es).dropped = es.length - c ∧
    (c ≤ es.length → (pushAll (Subscription.fresh c) es).queue.length = c) ∧
    (∀ sub more, sub.dropped ≤ (pushAll sub more).dropped) := by
  obtain ⟨hcap, hq, hd⟩ := pushAll_fresh_spec c hc es
  refine ⟨hq, hd, fun hle => ?_, fun sub more => pushAll_dropped_mono sub more⟩
  rw [hq, List.length_drop]
  omega

/-- Witness for C6 at the spec's scenario: capacity 2, five events, no
`Next()` — the queue ends with exactly the two most recent events and
the dropped count is 3. -/
theorem sink_overflow_drops_oldest_witness :
    (0 : Nat) < 2 ∧
    (pushAll (Subscription.fresh 2)
      [.deletion "1", .deletion "2", .deletion "3", .deletion "4",
        .deletion "5"]).queue = [.deletion "4", .deletion "5"] ∧
    (pushAll (Subscription.fresh 2)
      [.deletion "1", .deletion "2", .deletion "3", .deletion "4",
        .deletion "5"]).dropped = 3 := by
  have h := sink_overflow_drops_oldest 2
    [.deletion "1", .deletion "2", .deletion "3", .deletion "4",
      .deletion "5"] (by decide)
  exact ⟨by decide, h.1.trans (by decide), h.2.1.trans (by decide)⟩

/-- Modelled from the spec: the computed reconnect delay after `k + 1`
consecutive failures — exponential from the base delay, doubling per
consecutive failure, capped at the configured maximum.  The Stream
Session source is missing from src/. -/
def computeDelay (base maxDelay k : Nat) : Nat :=
  min (base * 2 ^ k) maxDelay

/-- Modelled from the spec: full jitter — a uniform random factor `r` in
`[0, 1]` applied to the computed delay.  The Stream Session source is
missing from src/. -/
def jitterDelay (r : ℚ) (d : Nat) : ℚ := r * d

/-- C5: over `N` consecutive failures the computed delay sequence starts
at the base delay (capped), exactly doubles while below the cap, is
non-decreasing, and never exceeds the cap; the actual delay of each
attempt lies in `[0, computedDelay]` for any jitter factor in `[0, 1]`;
and the attempt counter resets to `0` the moment a streaming connection
delivers a non-heartbeat frame or survives one full heartbeat
interval. -/
theorem backoff_policy (b m k : Nat) (r : ℚ) (hr0 : 0 ≤ r) (hr1 : r ≤ 1) :
    computeDelay b m 0 = min b m ∧
    (b * 2 ^ (k + 1) ≤ m → computeDelay b m (k + 1) = 2 * computeDelay b m k) ∧
    computeDelay b m k ≤ computeDelay b m (k + 1) ∧
    computeDelay b m k ≤ m ∧
    (∀ d : Nat, 0 ≤ jitterDelay r d ∧ jitterDelay r d ≤ (d : ℚ)) ∧
    (∀ (pS : String → Option Status) (pN : String → Option Notification)
        (s : Session) (now : Nat) (f : RawFrame),
      s.state = .streaming → decodeEvent pS pN f ≠ .heartbeat →
      (stepSession pS pN s (.frame now f)).attempt = 0) ∧
    (∀ (pS : String → Option Status) (pN : String → Option Notification)
        (s : Session),
      s.state = .streaming →
      (stepSession pS pN s .survivedHeartbeatInterval).attempt = 0) := by
  have hmono : b * 2 ^ k ≤ b * 2 ^ (k + 1) :=
    Nat.mul_le_mul_left b (Nat.pow_le_pow_right (by omega) (by omega))
  refine ⟨by simp [computeDelay], ?_, ?_, Nat.min_le_right _ _, ?_, ?_, ?_⟩
  · intro hcap
    have hk : b * 2 ^ k ≤ m := le_trans hmono hcap
    rw [computeDelay, computeDelay, Nat.min_eq_left hcap, Nat.min_eq_left hk,
      pow_succ]
    ring
  · exact min_le_min hmono (le_refl m)
  · intro d
    constructor
    · exact mul_nonneg hr0 (Nat.cast_nonneg d)
    · calc jitterDelay r d = r * d := rfl
        _ ≤ 1 * d := by
            exact mul_le_mul_of_nonneg_right hr1 (Nat.cast_nonneg d)
        _ = d := one_mul _
  · intro pS pN s now f hs hf
    cases hdec : decodeEvent pS pN f <;> simp_all [stepSession, hs, hdec]
  · intro pS pN s hs
    simp [stepSession, hs]

/-- Witness for C5 at base 1, cap 8, jitter factor 1/2: the delay after
the third failure doubles that of the second, the sequence is capped and
non-decreasing, the jittered delay lies within the computed bound, and a
streaming session that delivers a deletion frame resets its attempt
counter to zero. -/
theorem backoff_policy_witness :
    computeDelay 1 8 2 = 2 * computeDelay 1 8 1 ∧
    computeDelay 1 8 4 ≤ 8 ∧
    jitterDelay (1 / 2) 6 ≤ (6 : ℚ) ∧
    (stepSession (fun _ => none) (fun _ => none)
      (Session.mk .streaming 4 [] 0 none) (.frame 3 ⟨"delete", "9"⟩)).attempt = 0 := by
  have h := backoff_policy 1 8 1 (1 / 2) (by norm_num) (by norm_num)
  have h4 := backoff_policy 1 8 4 (1 / 2) (by norm_num) (by norm_num)
  refine ⟨h.2.1 (by norm_num), h4.2.2.2.1, (h.2.2.2.2.1 6).2, ?_⟩
  exact h.2.2.2.2.2.1 (fun _ => none) (fun _ => none)
    (Session.mk .streaming 4 [] 0 none) 3 ⟨"delete", "9"⟩ rfl (by decide)

/-- C7: a connection failure while connecting, streaming or reconnecting
is classified by response status — an authorization-rejected response
closes the session terminally with the error recorded (and it stays
`Closed` under any further occurrences, so only an explicit restart
leaves it), while every transient failure (DNS/TCP failure, non-auth
HTTP status, abrupt close, liveness timeout) is never surfaced as a hard
failure: it moves to `Reconnecting` with the next attempt number, for
any current attempt count (the retry loop is unbounded). -/
theorem failure_classified (pS : String → Option Status)
    (pN : String → Option Notification) (s : Session) (k : FailKind)
    (hs : s.state = .streaming ∨ s.state = .connecting ∨
      ∃ n, s.state = .reconnecting n) :
    (isAuthRejected k = true →
      (stepSession pS pN s (.connFailed k)).state = .closed ∧
      (stepSession pS pN s (.connFailed k)).lastError = some k ∧
      ∀ acts, (runSession pS pN (stepSession pS pN s (.connFailed k)) acts).state =
        .closed) ∧
    (isAuthRejected k = false →
      (stepSession pS pN s (.connFailed k)).state = .reconnecting (s.attempt + 1) ∧
      (stepSession pS pN s (.connFailed k)).state ≠ .closed) ∧
    isAuthRejected .dnsFailure = false ∧
    isAuthRejected .tcpFailure = false ∧
    isAuthRejected .abruptClose = false ∧
    isAuthRejected .livenessTimeout = false := by
  have hstep : stepSession pS pN s (.connFailed k) =
      if isAuthRejected k then { s with state := .closed, lastError := some k }
      else { s with state := .reconnecting (s.attempt + 1), attempt := s.attempt + 1 } := by
    rcases hs with h | h | ⟨n, h⟩ <;>
      · rw [stepSession]
        rw [h]
  refine ⟨?_, ?_, rfl, rfl, rfl, rfl⟩
  · intro hk
    rw [hstep, if_pos hk]
    refine ⟨rfl, rfl, fun acts => ?_⟩
    rw [runSession_closed pS pN _ acts rfl]
  · intro hk
    rw [hstep, if_neg (by simp [hk])]
    exact ⟨rfl, by simp⟩

/-- Witness for C7: a streaming session hit by a 401 response closes
with the error recorded and stays closed, while the same session hit by
a TCP failure at attempt count 2 retries as attempt 3. -/
theorem failure_classified_witness :
    (stepSession (fun _ => none) (fun _ => none)
      (Session.mk .streaming 2 [] 0 none)
      (.connFailed (.httpStatus 401))).state = .closed ∧
    (stepSession (fun _ => none) (fun _ => none)
      (Session.mk .streaming 2 [] 0 none)
      (.connFailed (.httpStatus 401))).lastError = some (.httpStatus 401) ∧
    (stepSession (fun _ => none) (fun _ => none)
      (Session.mk .streaming 2 [] 0 none)
      (.connFailed .tcpFailure)).state = .reconnecting 3 := by
  have h1 := failure_classified (fun _ => none) (fun _ => none)
    (Session.mk .streaming 2 [] 0 none) (.httpStatus 401) (Or.inl rfl)
  have h2 := failure_classified (fun _ => none) (fun _ => none)
    (Session.mk .streaming 2 [] 0 none) .tcpFailure (Or.inl rfl)
  exact ⟨(h1.1 (by decide)).1, (h1.1 (by decide)).2.1, (h2.2.1 (by decide)).1⟩

end Mastodon
